import Mathlib

/-!
Verification of the audit check framework of the `jsm.go` repository
(`audit/checks.go` and the meta-cluster checks), shallowly embedded in Lean.

Go machine values are modelled as follows: `Outcome` (a Go `int`) is `Int`;
`float64` configuration values are modelled as `ℚ` (the checks only compare
and divide by 100, which is exact); Go maps are modelled as association
lists with `mapGet`/`mapSet` (update-in-place of the first matching key,
insert at the end otherwise); `nil` slices are `Option (List _)`; a Go
`panic` is `Option.none` of the surrounding computation; a returned
`error` is an `Option String` / `Except String` value.
-/

namespace audit

/-- Association-list lookup, modelling a Go map read (`m[k]`). -/
def mapGet {α : Type} : List (String × α) → String → Option α
  | [], _ => none
  | (k', v') :: rest, k => if k' = k then some v' else mapGet rest k

/-- Association-list update, modelling a Go map write (`m[k] = v`). -/
def mapSet {α : Type} : List (String × α) → String → α → List (String × α)
  | [], k, v => [(k, v)]
  | (k', v') :: rest, k, v =>
      if k' = k then (k, v) :: rest else (k', v') :: mapSet rest k v

/-- Modelling a Go map increment `m[k]++` (a missing key reads as zero). -/
def mapInc (m : List (String × Nat)) (k : String) : List (String × Nat) :=
  mapSet m k ((mapGet m k).getD 0 + 1)

/-- Sum of the values of a string-keyed counter map. -/
def mSum (m : List (String × Nat)) : Nat := (m.map Prod.snd).sum

/-- Lower-casing a string character by character (an executable model of
`strings.ToLower`, written over the character list so that it reduces). -/
def strToLower (s : String) : String := String.mk (s.data.map Char.toLower)

/-- Modelling `strings.EqualFold` (case-insensitive string equality). -/
def eqFold (a b : String) : Bool := strToLower a == strToLower b

/-- Outcome of running a check (`type Outcome int` in the source). -/
abbrev Outcome := Int

/-- Pass is for no issues detected (`iota` value 0). -/
def Pass : Outcome := 0
/-- PassWithIssues is for non-critical problems (`iota` value 1). -/
def PassWithIssues : Outcome := 1
/-- Fail indicates a bad state is detected (`iota` value 2). -/
def Fail : Outcome := 2
/-- Skipped is for checks that failed to run (`iota` value 3). -/
def Skipped : Outcome := 3

/-- Outcomes is the list of possible outcomes values. -/
def Outcomes : List Outcome := [Pass, PassWithIssues, Fail, Skipped]

/-- `Outcome.String()` from the source: converts an outcome into a 4-letter
label, and panics (`none` here) on any other integer value. -/
def Outcome.String (o : Outcome) : Option String :=
  if o = Fail then some "FAIL"
  else if o = Pass then some "PASS"
  else if o = PassWithIssues then some "WARN"
  else if o = Skipped then some "SKIP"
  else none

/-- Modelled from the spec: the `ExamplesCollection` type is not part of the
sources given (only its uses are); per the spec it is a bounded ordered
sequence of example strings with a declared limit, an optional error text,
and a running total of examples offered beyond the limit (dropped rather
than stored). -/
structure ExamplesCollection where
  Examples : List String
  Error : String
  Limit : Nat
  Dropped : Nat
  deriving Repr, DecidableEq

/-- Modelled from the spec: a fresh bounded collection for one check run. -/
def newExamplesCollection (limit : Nat) : ExamplesCollection :=
  { Examples := [], Error := "", Limit := limit, Dropped := 0 }

/-- The Go zero value of `ExamplesCollection` (a `CheckResult` whose check
contributed no examples keeps this zero value). -/
def emptyExamples : ExamplesCollection :=
  { Examples := [], Error := "", Limit := 0, Dropped := 0 }

/-- Modelled from the spec: `Add` stores the (already formatted) example
while under the limit and otherwise only counts it as dropped, so the
stored count never exceeds the limit. -/
def ExamplesCollection.Add (c : ExamplesCollection) (s : String) : ExamplesCollection :=
  if c.Examples.length < c.Limit then { c with Examples := c.Examples ++ [s] }
  else { c with Dropped := c.Dropped + 1 }

/-- Modelled from the spec: `Count` reports the total number of examples
offered to the collection (stored plus dropped), so the report can state
how many were dropped. -/
def ExamplesCollection.Count (c : ExamplesCollection) : Nat :=
  c.Examples.length + c.Dropped

/-- `ConfigurationUnit` is a Go string type. -/
abbrev ConfigUnit := String

def PercentageUnit : ConfigUnit := "%"
def IntUnit : ConfigUnit := "int"
def UIntUnit : ConfigUnit := "uint"

/-- A Go `float64` as `strconv.ParseFloat` can produce it: `NaN` (which
`ParseFloat("NaN", 64)` returns with a nil error), the two infinities, or
a finite value.  Finite values are modelled as exact rationals: the checks
only compare against 0, 1 and 100 and divide by 100, so decimal rounding
is irrelevant to the control flow verified here. -/
inductive GoFloat where
  | nan
  | posInf
  | negInf
  | finite (q : ℚ)
  deriving Repr, DecidableEq

/-- IEEE-754 `<` on modelled floats: every comparison involving NaN is
false, `-Inf` is below and `+Inf` above every other value. -/
def GoFloat.ltF : GoFloat → GoFloat → Bool
  | .nan, _ => false
  | _, .nan => false
  | .negInf, .negInf => false
  | .negInf, _ => true
  | _, .negInf => false
  | .posInf, _ => false
  | .finite _, .posInf => true
  | .finite a, .finite b => decide (a < b)

/-- IEEE-754 division as the source uses it (`f / 100`, a finite positive
divisor): finite by finite divides exactly, NaN propagates, an infinite
dividend keeps its sign, a finite dividend over an infinity gives zero.
(Division by zero or by NaN never occurs in the source.) -/
def GoFloat.divF : GoFloat → GoFloat → GoFloat
  | .nan, _ => .nan
  | .posInf, _ => .posInf
  | .negInf, _ => .negInf
  | .finite a, .finite b => .finite (a / b)
  | .finite _, .posInf => .finite 0
  | .finite _, .negInf => .finite 0
  | .finite _, .nan => .nan

/-- Whether a modelled float is a finite value. -/
def GoFloat.isFinite : GoFloat → Bool
  | .finite _ => true
  | _ => false

/-- Whether a modelled float lies in the closed interval from 0 to 1. -/
def GoFloat.inUnitInterval : GoFloat → Bool
  | .finite q => decide (0 ≤ q ∧ q ≤ 1)
  | _ => false

/-- CheckConfiguration describes and holds the configuration for a check.
Go `float64` fields are modelled as `GoFloat`. -/
structure CheckConfig where
  Key : String
  Check : String
  Description : String
  Default : GoFloat
  Unit : ConfigUnit
  SetValue : Option GoFloat
  deriving Repr, DecidableEq

/-- `CheckConfiguration.Value`: retrieves the set value or default value. -/
def CheckConfig.Value (c : CheckConfig) : GoFloat :=
  match c.SetValue with
  | some v => v
  | none => c.Default

/-- Modelling `strings.TrimRight(v, "%")`: drop all trailing `%` runes. -/
def trimRightPercent (v : String) : String :=
  String.mk ((v.data.reverse.dropWhile (fun c => c = '%')).reverse)

/-- `CheckConfiguration.Set` from the source.  `strconv.ParseFloat` is kept
abstract as a `parse` argument returning `none` exactly when Go would
return a non-nil error — in particular it may return `some .nan`, since
`ParseFloat("NaN", 64)` succeeds; comparisons and the division by 100
follow IEEE semantics via `GoFloat`.  The source's branches are otherwise
followed one for one. -/
def CheckConfig.Set (parse : String → Option GoFloat) (c : CheckConfig) (v : String) :
    Except String CheckConfig :=
  if c.Unit = PercentageUnit then
    match parse (trimRightPercent v) with
    | none => .error "parse error"
    | some f =>
      if f.ltF (.finite 0) then .error "percentage values must be positive"
      else if (GoFloat.finite 100).ltF f then .error "percentage values may not exceed 100"
      else
        let f := if (GoFloat.finite 1).ltF f then f.divF (.finite 100) else f
        .ok { c with SetValue := some f }
  else
    match parse v with
    | none => .error "parse error"
    | some f =>
      if c.Unit = UIntUnit ∧ f.ltF (.finite 0) = true then .error "value must be positive"
      else .ok { c with SetValue := some f }

/-- The handler signature `CheckFunc`, with the `*archive.Reader` argument
abstracted to a type parameter `R` and the `check` argument dropped (a
Lean structure field cannot consume the structure itself; the handlers in
the sources ignore that argument).  The handler returns its outcome, its
returned Go `error` as `Option String`, and the examples collection it
mutated. -/
abbrev CheckFunc (R : Type) :=
  R → ExamplesCollection → Outcome × Option String × ExamplesCollection

/-- Check is the basic unit of analysis run against a data archive.  The
`Handler` is `Option`al so that a Go `nil` handler is representable (calling
it panics). -/
structure Check (R : Type) where
  Code : String
  Name : String
  Description : String
  Configuration : List (String × CheckConfig) := []
  Handler : Option (CheckFunc R) := none

/-- RunCheck is a wrapper to run a check, handling setup and errors
(`audit/checks.go`).  `none` models the panic of calling a `nil` handler. -/
def RunCheck {R : Type} (check : Check R) (ar : R) (limit : Nat) :
    Option (Outcome × ExamplesCollection) :=
  match check.Handler with
  | none => none
  | some handler =>
    let examples := newExamplesCollection limit
    match handler ar examples with
    | (_, some msg, examples) => some (Skipped, { examples with Error := msg })
    | (outcome, none, examples) => some (outcome, examples)

/-- CheckResult is the outcome of a single check. -/
structure CheckResult (R : Type) where
  Check : Check R
  Outcome : Outcome
  OutcomeString : String
  Examples : ExamplesCollection

/-- Analysis represents the result of an entire analysis.  The wall-clock
`Time` and archive `Metadata` fields are environment inputs irrelevant to
the claims and are omitted; `Type` is renamed `Type'` (Lean keyword). -/
structure Analysis (R : Type) where
  Type' : String
  Skipped : List String
  Results : List (CheckResult R)
  Outcomes : List (String × Nat)

/-- One iteration of the `RunChecks` loop before the shared
`res.OutcomeString = res.Outcome.String()` line: the skip-list test
(`slices.ContainsFunc` with `strings.EqualFold`), the `RunCheck` call, and
the rule that the examples collection is copied onto the result only when
it holds at least one example (otherwise the result keeps the Go zero
value).  `none` models the panic of a `nil` handler. -/
def runCheckResult {R : Type} (ar : R) (limit : Nat) (skip : List String)
    (check : Check R) : Option (CheckResult R) :=
  if !(skip.any (fun s => eqFold check.Code s)) then
    match RunCheck check ar limit with
    | none => none
    | some (outcome, examples) =>
      some { Check := check, Outcome := outcome, OutcomeString := "",
             Examples := if examples.Examples.length > 0 then examples
                         else emptyExamples }
  else
    some { Check := check, Outcome := Skipped, OutcomeString := "",
           Examples := emptyExamples }

/-- The per-check loop of `RunChecks`, written as structural recursion over
the remaining checks with the accumulated results and outcome tallies;
`none` models a panic (nil handler, or `Outcome.String` on an out-of-range
outcome returned by a handler). -/
def runChecksLoop {R : Type} (ar : R) (limit : Nat) (skip : List String) :
    List (Check R) → List (CheckResult R) → List (String × Nat) →
    Option (List (CheckResult R) × List (String × Nat))
  | [], results, outcomes => some (results, outcomes)
  | check :: rest, results, outcomes =>
    match runCheckResult ar limit skip check with
    | none => none
    | some res =>
      match Outcome.String res.Outcome with
      | none => none
      | some label =>
        runChecksLoop ar limit skip rest
          (results ++ [{ res with OutcomeString := label }])
          (mapInc outcomes label)

/-- The initial outcome tally of `RunChecks`: every label of `Outcomes`
mapped to zero. -/
def initOutcomes : Option (List (String × Nat)) :=
  Outcomes.foldlM (fun m o => (Outcome.String o).map (fun label => mapSet m label 0)) []

/-- RunChecks runs all the checks (`audit/checks.go`).  `skip = none`
models a `nil` skip slice; `none` in the result models a panic inside the
run. -/
def RunChecks {R : Type} (checks : List (Check R)) (ar : R) (limit : Nat)
    (skip : Option (List String)) : Option (Analysis R) :=
  let skipped := skip.getD []
  match initOutcomes with
  | none => none
  | some init =>
    match runChecksLoop ar limit (skip.getD []) checks [] init with
    | none => none
    | some (results, outcomes) =>
      some { Type' := "io.nats.audit.v1.analysis", Skipped := skipped,
             Results := results, Outcomes := outcomes }

/-- The process-wide registry: `registeredChecks` is the Go map keyed by
check NAME, `checksConfiguration` the map keyed by `configItemKey`. -/
structure RegistryState (R : Type) where
  registeredChecks : List (String × Check R)
  checksConfiguration : List (String × CheckConfig)

/-- The initial (empty) registry. -/
def emptyRegistry (R : Type) : RegistryState R :=
  { registeredChecks := [], checksConfiguration := [] }

/-- `configItemKey` from the source. -/
def configItemKey (code key : String) : String :=
  strToLower code ++ "_" ++ key

/-- One iteration of the `MustRegisterCheck` loop; `none` models a panic.
Branches in source order: required-field panics, then the NAME collision
test against `registeredChecks`, then the configuration-item loop (which
sets `cfg.Check = check.Code` on the shared configuration record — modelled
by updating it both in `checksConfiguration` and in the stored check), then
`registeredChecks[check.Name] = check`. -/
def registerOne {R : Type} (st : RegistryState R) (check : Check R) :
    Option (RegistryState R) :=
  if check.Code = "" then none
  else if check.Name = "" then none
  else if check.Description = "" then none
  else if check.Handler.isNone then none
  else if (mapGet st.registeredChecks check.Name).isSome then none
  else
    match check.Configuration.foldlM
        (fun cfgs p =>
          if p.2.Key = "" then none
          else if p.2.Description = "" then none
          else some (mapSet cfgs (configItemKey check.Code p.2.Key)
                       { p.2 with Check := check.Code }))
        st.checksConfiguration with
    | none => none
    | some cfgs =>
      let updatedCfg := check.Configuration.map
        (fun p => (p.1, { p.2 with Check := check.Code }))
      let check' := { check with Configuration := updatedCfg }
      some { registeredChecks := mapSet st.registeredChecks check.Name check',
             checksConfiguration := cfgs }

/-- `MustRegisterCheck` from the source: registers the checks in order,
panicking (`none`) on a validation failure or a NAME collision. -/
def MustRegisterCheck {R : Type} (st : RegistryState R) (checks : List (Check R)) :
    Option (RegistryState R) :=
  checks.foldlM registerOne st

/-- `GetDefaultChecks` from the source, parameterised by the order in
which the Go runtime yields the registry map's values: `range` over a Go
map is randomised, so `values` stands for the registry's checks in one of
the possible iteration orders, and different calls on the same registry
may present different permutations.  The snapshot is then sorted with
`sort.Slice` on `res[i].Code < res[j].Code`; `sort.Slice` is not stable,
so the relative order of equal-code checks follows the (randomised) input
order — modelled by an insertion sort, whose tie order likewise follows
the input order. -/
def GetDefaultChecks {R : Type} (values : List (Check R)) : List (Check R) :=
  List.insertionSort (fun a b => a.Code ≤ b.Code) values

/-- The slice of `server.JSInfo` the meta-leader check reads: the meta
group info carries the leader name reported by that server. -/
structure MetaInfo where
  Leader : String
  deriving Repr, DecidableEq

/-- The slice of the JSZ artifact payload (`resp.Data`) the meta-leader
check reads: whether JetStream is disabled and the optional meta group
info (`Meta == nil` modelled as `none`). -/
structure JSInfo where
  Disabled : Bool
  Meta : Option MetaInfo
  deriving Repr, DecidableEq

/-- Result of `r.Load(&resp, clusterTag, serverTag, jsTag)` for one server:
`archive.ErrNoMatches`, any other error, or the loaded payload. -/
inductive LoadResult where
  | noMatches
  | errOther (msg : String)
  | ok (data : JSInfo)
  deriving Repr, DecidableEq

/-- Modelled from the spec: the archive `Reader` query façade (spec §4.1)
is not part of the sources given; it is modelled abstractly by the three
operations `checkMetaClusterLeader` uses: the distinct cluster names, the
server names of a cluster, and loading one server's JSZ artifact. -/
structure Reader where
  clusterNames : List String
  clusterServerNames : String → List String
  loadJsz : String → String → LoadResult

/-- Modelling the Go `leaderFollowers[leader] = append(leaderFollowers[leader],
serverName)` idiom (a missing key reads as an empty slice). -/
def mapAppend (m : List (String × List String)) (k v : String) :
    List (String × List String) :=
  mapSet m k ((mapGet m k).getD [] ++ [v])

/-- Rendering of the `leaderFollowers` map for the example message
(Go `fmt` prints maps sorted by key). -/
def renderFollowers (m : List (String × List String)) : String :=
  "map[" ++ String.intercalate " "
    ((List.insertionSort (fun a b : String × List String => a.1 ≤ b.1) m).map
      (fun p => p.1 ++ ":[" ++ String.intercalate " " p.2 ++ "]")) ++ "]"

/-- The inner (per-server) loop of `checkMetaClusterLeader`: group the
responding servers of one cluster by the meta leader each reports
(substituting `NO_LEADER` for an empty leader), skipping servers whose
artifact is missing, whose JetStream is disabled or which have no meta
group info; a hard load error aborts with the wrapped error. -/
def gatherLeaderFollowers (r : Reader) (clusterName : String) :
    List String → List (String × List String) →
    Except String (List (String × List String))
  | [], leaderFollowers => .ok leaderFollowers
  | serverName :: rest, leaderFollowers =>
    match r.loadJsz clusterName serverName with
    | .noMatches => gatherLeaderFollowers r clusterName rest leaderFollowers
    | .errOther msg =>
      .error ("failed to load JSZ for server " ++ serverName ++ ": " ++ msg)
    | .ok info =>
      if info.Disabled then gatherLeaderFollowers r clusterName rest leaderFollowers
      else
        match info.Meta with
        | none => gatherLeaderFollowers r clusterName rest leaderFollowers
        | some meta =>
          let leader := if meta.Leader = "" then "NO_LEADER" else meta.Leader
          gatherLeaderFollowers r clusterName rest
            (mapAppend leaderFollowers leader serverName)

/-- The outer (per-cluster) loop of `checkMetaClusterLeader`: one example
is added per cluster whose `leaderFollowers` map has more than one entry;
a hard load error stops the loop and is returned with the examples
collected so far. -/
def metaLeaderLoop (r : Reader) :
    List String → ExamplesCollection → Option String × ExamplesCollection
  | [], examples => (none, examples)
  | clusterName :: rest, examples =>
    match gatherLeaderFollowers r clusterName (r.clusterServerNames clusterName) [] with
    | .error msg => (some msg, examples)
    | .ok leaderFollowers =>
      let examples :=
        if leaderFollowers.length > 1 then
          examples.Add ("Members of " ++ clusterName ++
            " disagree on meta leader (" ++ renderFollowers leaderFollowers ++ ")")
        else examples
      metaLeaderLoop r rest examples

/-- `checkMetaClusterLeader` from the source, as a `CheckFunc` body: on a
hard load error it returns `Skipped` with the error; otherwise `Fail` when
any example was collected, else `Pass`. -/
def checkMetaClusterLeader (r : Reader) (examples : ExamplesCollection) :
    Outcome × Option String × ExamplesCollection :=
  match metaLeaderLoop r r.clusterNames examples with
  | (some msg, examples) => (Skipped, some msg, examples)
  | (none, examples) =>
    if examples.Count > 0 then (Fail, none, examples)
    else (Pass, none, examples)

/-- The meta leader one server reports, as the check reads it: `none` for
a missing artifact, disabled JetStream or absent meta info; otherwise the
reported leader with `NO_LEADER` substituted for the empty string.  (Used
to state what `checkMetaClusterLeader` computes.) -/
def serverLeader (r : Reader) (clusterName serverName : String) : Option String :=
  match r.loadJsz clusterName serverName with
  | .ok info =>
    if info.Disabled then none
    else info.Meta.map (fun m => if m.Leader = "" then "NO_LEADER" else m.Leader)
  | _ => none

/-- The leaders observed among the responding servers of a cluster. -/
def respondingLeaders (r : Reader) (clusterName : String) : List String :=
  (r.clusterServerNames clusterName).filterMap (serverLeader r clusterName)

/-- The clusters in which more than one distinct leader value is observed. -/
def disagreeingClusters (r : Reader) : List String :=
  r.clusterNames.filter (fun c => 1 < (respondingLeaders r c).dedup.length)

/-! Concrete sample inputs used to instantiate the theorems. -/

/-- A sample check with a `nil` handler (never invoked when skipped). -/
def sampleCheckA : Check Unit :=
  { Code := "C1", Name := "A", Description := "d" }

/-- A sample handler that succeeds with `Pass` and adds no example. -/
def samplePassHandler : CheckFunc Unit := fun _ examples => (Pass, none, examples)

/-- A sample check whose handler passes. -/
def sampleCheckB : Check Unit :=
  { Code := "C2", Name := "B", Description := "d", Handler := some samplePassHandler }

/-- A sample handler that returns an error without adding any example. -/
def sampleErrHandler : CheckFunc Unit := fun _ examples => (Pass, some "boom", examples)

/-- A sample check whose handler errors with no examples. -/
def sampleCheckErr : Check Unit :=
  { Code := "C3", Name := "C", Description := "d", Handler := some sampleErrHandler }

/-- A sample handler that adds one example and then returns an error. -/
def sampleErrExHandler : CheckFunc Unit :=
  fun _ examples => (Fail, some "boom", examples.Add "ex1")

/-- A sample check whose handler adds an example and errors. -/
def sampleCheckErrEx : Check Unit :=
  { Code := "C4", Name := "D", Description := "d", Handler := some sampleErrExHandler }

/-- A sample numeric parser for instantiating `CheckConfig.Set`. -/
def sampleParse : String → Option GoFloat :=
  fun s => if s = "50" then some (.finite 50) else none

/-- A sample parser accepting `NaN`, as `strconv.ParseFloat` does. -/
def sampleParseNaN : String → Option GoFloat :=
  fun s => if s = "NaN" then some .nan else none

/-- A sample percentage configuration item with no override set. -/
def sampleCfg : CheckConfig :=
  { Key := "k", Check := "C1", Description := "d", Default := .finite (1/2),
    Unit := PercentageUnit, SetValue := none }

/-- Scenario B of the spec: in cluster `C1`, servers `s1` and `s2` report
leader `srv1` while `s3` reports `srv2`. -/
def sampleReaderB : Reader :=
  { clusterNames := ["C1"]
    clusterServerNames := fun c => if c = "C1" then ["s1", "s2", "s3"] else []
    loadJsz := fun c s =>
      if c = "C1" ∧ (s = "s1" ∨ s = "s2") then
        .ok { Disabled := false, Meta := some { Leader := "srv1" } }
      else if c = "C1" ∧ s = "s3" then
        .ok { Disabled := false, Meta := some { Leader := "srv2" } }
      else .noMatches }

/-- The analysis produced by running the single skip-listed `sampleCheckA`
with skip list `["c1", "nope"]`. -/
def sampleAnalysisA : Analysis Unit :=
  { Type' := "io.nats.audit.v1.analysis"
    Skipped := ["c1", "nope"]
    Results := [{ Check := sampleCheckA, Outcome := Skipped,
                  OutcomeString := "SKIP", Examples := emptyExamples }]
    Outcomes := [("PASS", 0), ("WARN", 0), ("FAIL", 0), ("SKIP", 1)] }

/-- A registrable check with code `X1` and name `N1`. -/
def sampleDupCode1 : Check Unit :=
  { Code := "X1", Name := "N1", Description := "d", Handler := some samplePassHandler }

/-- A registrable check sharing code `X1` with `sampleDupCode1` but with a
different name. -/
def sampleDupCode2 : Check Unit :=
  { Code := "X1", Name := "N2", Description := "d", Handler := some samplePassHandler }

/-- A registrable check whose name `N1` collides with `sampleDupCode1`. -/
def sampleDupName : Check Unit :=
  { Code := "X9", Name := "N1", Description := "d", Handler := some samplePassHandler }

/-- The analysis produced by running `sampleCheckErr` alone: its handler
errors without adding examples, so the stored result keeps the zero-value
collection and the error text is gone. -/
def sampleAnalysisErr : Analysis Unit :=
  { Type' := "io.nats.audit.v1.analysis"
    Skipped := []
    Results := [{ Check := sampleCheckErr, Outcome := Skipped,
                  OutcomeString := "SKIP", Examples := emptyExamples }]
    Outcomes := [("PASS", 0), ("WARN", 0), ("FAIL", 0), ("SKIP", 1)] }

/-! Helper lemmas about the map model. -/

theorem mapGet_mapSet {α : Type} (m : List (String × α)) (k k' : String) (v : α) :
    mapGet (mapSet m k v) k' = if k = k' then some v else mapGet m k' := by
  induction m with
  | nil => simp [mapSet, mapGet]
  | cons p rest ih =>
    obtain ⟨a, b⟩ := p
    by_cases hak : a = k
    · subst hak
      simp only [mapSet, if_pos rfl, mapGet]
      by_cases hkk : a = k' <;> simp [hkk, mapGet]
    · simp only [mapSet, if_neg hak, mapGet]
      by_cases hkk : a = k'
      · have hkne : ¬ k = k' := fun hk => hak (hk ▸ hkk)
        simp [hkk, hkne]
      · simp [hkk, ih]

theorem mSum_cons {k : String} {v : Nat} {m : List (String × Nat)} :
    mSum ((k, v) :: m) = v + mSum m := by
  simp [mSum]

theorem mSum_mapInc (m : List (String × Nat)) (k : String) :
    mSum (mapInc m k) = mSum m + 1 := by
  unfold mapInc
  induction m with
  | nil => simp [mapGet, mapSet, mSum]
  | cons p rest ih =>
    obtain ⟨a, b⟩ := p
    simp only [mapGet, mapSet]
    by_cases hak : a = k
    · simp [hak, mSum_cons]; omega
    · simp only [hak, if_neg, ite_false, mSum_cons]
      rw [ih]; omega

theorem mapGet_mapInc_isSome (m : List (String × Nat)) (k k' : String)
    (h : (mapGet m k').isSome = true) : (mapGet (mapInc m k) k').isSome = true := by
  unfold mapInc
  rw [mapGet_mapSet]
  split <;> simp [h]

/-! Helper lemmas about one iteration of the runner loop. -/

theorem runCheckResult_check {R : Type} (ar : R) (limit : Nat) (skip : List String)
    (check : Check R) (res : CheckResult R)
    (h : runCheckResult ar limit skip check = some res) : res.Check = check := by
  unfold runCheckResult at h
  split at h
  · split at h
    · exact absurd h (by simp)
    · obtain rfl : _ = res := Option.some.inj h
      rfl
  · obtain rfl : _ = res := Option.some.inj h
    rfl

theorem runCheckResult_skipped {R : Type} (ar : R) (limit : Nat) (skip : List String)
    (check : Check R) (res : CheckResult R)
    (h : runCheckResult ar limit skip check = some res)
    (hskip : skip.any (fun s => eqFold check.Code s) = true) :
    res = { Check := check, Outcome := Skipped, OutcomeString := "",
            Examples := emptyExamples } := by
  unfold runCheckResult at h
  rw [hskip] at h
  simpa using h.symm

/-- The main invariant of the `RunChecks` loop: it appends one result per
input check (carrying that check, and the fixed skipped record for checks
matching the skip list), adds exactly one to the outcome tallies per check,
and never removes a tally key. -/
theorem runChecksLoop_invariant {R : Type} (ar : R) (limit : Nat) (skip : List String)
    (cs : List (Check R)) :
    ∀ (results : List (CheckResult R)) (outcomes : List (String × Nat))
      (rs : List (CheckResult R)) (os : List (String × Nat)),
      runChecksLoop ar limit skip cs results outcomes = some (rs, os) →
      ∃ news, rs = results ++ news ∧
        List.Forall₂ (fun (c : Check R) (r : CheckResult R) =>
          r.Check = c ∧
          (skip.any (fun s => eqFold c.Code s) = true →
            r.Outcome = Skipped ∧ r.OutcomeString = "SKIP" ∧
            r.Examples = emptyExamples))
          cs news ∧
        mSum os = mSum outcomes + cs.length ∧
        (∀ k, (mapGet outcomes k).isSome = true → (mapGet os k).isSome = true) := by
  induction cs with
  | nil =>
    intro results outcomes rs os h
    simp only [runChecksLoop, Option.some.injEq, Prod.mk.injEq] at h
    obtain ⟨h1, h2⟩ := h
    subst h1; subst h2
    exact ⟨[], by simp, List.Forall₂.nil, by simp, fun k hk => hk⟩
  | cons check rest ih =>
    intro results outcomes rs os h
    simp only [runChecksLoop] at h
    split at h
    next => simp at h
    next res hres =>
      split at h
      next => simp at h
      next label hlab =>
        obtain ⟨news, hrs, hf, hsum, hkeys⟩ := ih _ _ _ _ h
        refine ⟨{ res with OutcomeString := label } :: news, ?_, ?_, ?_, ?_⟩
        · rw [hrs]; simp
        · refine List.Forall₂.cons ⟨?_, ?_⟩ hf
          · simpa using runCheckResult_check ar limit skip check res hres
          · intro hskip
            have hshape := runCheckResult_skipped ar limit skip check res hres hskip
            have hout : res.Outcome = Skipped := by rw [hshape]
            have hlabel : label = "SKIP" := by
              rw [hout] at hlab
              exact (Option.some.inj hlab).symm
            refine ⟨hout, hlabel ▸ rfl, ?_⟩
            rw [hshape]
        · rw [hsum, mSum_mapInc]
          simp; omega
        · intro k hk
          exact hkeys k (mapGet_mapInc_isSome outcomes label k hk)

theorem forall2_results_map {R : Type} {P : Check R → CheckResult R → Prop}
    (hP : ∀ c r, P c r → r.Check = c) :
    ∀ {cs : List (Check R)} {rs : List (CheckResult R)}, List.Forall₂ P cs rs →
      rs.map (fun r => r.Check) = cs := by
  intro cs rs h
  induction h with
  | nil => rfl
  | cons hcr _ ih => simp [ih, hP _ _ hcr]

/-- Unfolding `RunChecks = some a`: the analysis comes from the loop run on
the four zero-initialised tallies, and carries the verbatim skip list. -/
theorem runChecks_destruct {R : Type} (checks : List (Check R)) (ar : R) (limit : Nat)
    (skip : Option (List String)) (a : Analysis R)
    (h : RunChecks checks ar limit skip = some a) :
    ∃ results outcomes,
      runChecksLoop ar limit (skip.getD []) checks []
        [("PASS", 0), ("WARN", 0), ("FAIL", 0), ("SKIP", 0)] = some (results, outcomes) ∧
      a = { Type' := "io.nats.audit.v1.analysis", Skipped := skip.getD [],
            Results := results, Outcomes := outcomes } := by
  simp only [RunChecks] at h
  split at h
  next hinit => exact absurd hinit (by decide)
  next init hinit =>
    have hi : init = [("PASS", 0), ("WARN", 0), ("FAIL", 0), ("SKIP", 0)] := by
      have hv : initOutcomes = some [("PASS", 0), ("WARN", 0), ("FAIL", 0), ("SKIP", 0)] := by
        decide
      rw [hinit] at hv
      exact Option.some.inj hv
    subst hi
    split at h
    next => simp at h
    next results outcomes hloop =>
      refine ⟨results, outcomes, by simpa using hloop, ?_⟩
      exact (Option.some.inj h).symm

/-- C1: every completed `RunChecks` analysis has exactly one `CheckResult`
per input check, in input order, and the outcome tallies sum to the number
of checks — every requested check is counted in exactly one bucket, even
when a handler fails to execute. -/
theorem runChecks_accounts_every_check {R : Type} (checks : List (Check R)) (ar : R)
    (limit : Nat) (skip : Option (List String)) (a : Analysis R)
    (h : RunChecks checks ar limit skip = some a) :
    a.Results.length = checks.length ∧
    a.Results.map (fun r => r.Check) = checks ∧
    mSum a.Outcomes = checks.length := by
  obtain ⟨results, outcomes, hloop, rfl⟩ := runChecks_destruct checks ar limit skip a h
  obtain ⟨news, hrs, hf, hsum, _⟩ :=
    runChecksLoop_invariant ar limit (skip.getD []) checks [] _ results outcomes hloop
  simp only [List.nil_append] at hrs
  subst hrs
  refine ⟨?_, ?_, ?_⟩
  · simpa using (List.Forall₂.length_eq hf).symm
  · exact forall2_results_map (fun c r hp => hp.1) hf
  · rw [hsum]; simp [mSum]

/-- C1 witness: a one-check run (the check is skip-listed) produces one
result and tallies summing to one. -/
theorem runChecks_accounts_every_check_witness :
    RunChecks [sampleCheckA] () 5 (some ["c1", "nope"]) = some sampleAnalysisA ∧
    sampleAnalysisA.Results.length = 1 ∧ mSum sampleAnalysisA.Outcomes = 1 :=
  ⟨rfl, (runChecks_accounts_every_check [sampleCheckA] () 5 (some ["c1", "nope"])
          sampleAnalysisA rfl).1,
        (runChecks_accounts_every_check [sampleCheckA] () 5 (some ["c1", "nope"])
          sampleAnalysisA rfl).2.2⟩

/-- C2: every check whose code case-insensitively matches a skip-list entry
gets the fixed skipped result: outcome `Skipped`, label `SKIP`, and the
empty (zero value) example set.  The statement holds for every handler
value, including a `nil` (`none`) handler that would panic if invoked, so
the handler is never invoked for a skip-listed check. -/
theorem runChecks_skip_listed_checks {R : Type} (checks : List (Check R)) (ar : R)
    (limit : Nat) (skip : Option (List String)) (a : Analysis R)
    (h : RunChecks checks ar limit skip = some a) :
    List.Forall₂ (fun (c : Check R) (r : CheckResult R) =>
      (skip.getD []).any (fun s => eqFold c.Code s) = true →
        r.Check = c ∧ r.Outcome = Skipped ∧ r.OutcomeString = "SKIP" ∧
        r.Examples = emptyExamples) checks a.Results := by
  obtain ⟨results, outcomes, hloop, rfl⟩ := runChecks_destruct checks ar limit skip a h
  obtain ⟨news, hrs, hf, _, _⟩ :=
    runChecksLoop_invariant ar limit (skip.getD []) checks [] _ results outcomes hloop
  simp only [List.nil_append] at hrs
  subst hrs
  exact hf.imp (fun {c r} hp hskip => ⟨hp.1, (hp.2 hskip).1, (hp.2 hskip).2.1, (hp.2 hskip).2.2⟩)

/-- C2 witness: `sampleCheckA` (code `C1`, `nil` handler) is skip-listed by
`c1`; the run completes with the skipped result, so its handler was never
invoked. -/
theorem runChecks_skip_listed_checks_witness :
    RunChecks [sampleCheckA] () 5 (some ["c1", "nope"]) = some sampleAnalysisA ∧
    List.Forall₂ (fun (c : Check Unit) (r : CheckResult Unit) =>
      ((some ["c1", "nope"] : Option (List String)).getD []).any
          (fun s => eqFold c.Code s) = true →
        r.Check = c ∧ r.Outcome = Skipped ∧ r.OutcomeString = "SKIP" ∧
        r.Examples = emptyExamples) [sampleCheckA] sampleAnalysisA.Results :=
  ⟨rfl, runChecks_skip_listed_checks [sampleCheckA] () 5 (some ["c1", "nope"])
          sampleAnalysisA rfl⟩

/-- C8: the `Outcomes` map of every completed analysis has all four labels
`PASS`, `WARN`, `FAIL`, `SKIP` as keys (zero counts included). -/
theorem runChecks_outcomes_all_labels {R : Type} (checks : List (Check R)) (ar : R)
    (limit : Nat) (skip : Option (List String)) (a : Analysis R)
    (h : RunChecks checks ar limit skip = some a) :
    (mapGet a.Outcomes "PASS").isSome = true ∧
    (mapGet a.Outcomes "WARN").isSome = true ∧
    (mapGet a.Outcomes "FAIL").isSome = true ∧
    (mapGet a.Outcomes "SKIP").isSome = true := by
  obtain ⟨results, outcomes, hloop, rfl⟩ := runChecks_destruct checks ar limit skip a h
  obtain ⟨_, _, _, _, hkeys⟩ :=
    runChecksLoop_invariant ar limit (skip.getD []) checks [] _ results outcomes hloop
  exact ⟨hkeys "PASS" (by decide), hkeys "WARN" (by decide),
         hkeys "FAIL" (by decide), hkeys "SKIP" (by decide)⟩

/-- C8 witness: the sample run carries all four labels, three with count
zero. -/
theorem runChecks_outcomes_all_labels_witness :
    RunChecks [sampleCheckA] () 5 (some ["c1", "nope"]) = some sampleAnalysisA ∧
    ((mapGet sampleAnalysisA.Outcomes "PASS").isSome = true ∧
     (mapGet sampleAnalysisA.Outcomes "WARN").isSome = true ∧
     (mapGet sampleAnalysisA.Outcomes "FAIL").isSome = true ∧
     (mapGet sampleAnalysisA.Outcomes "SKIP").isSome = true) :=
  ⟨rfl, runChecks_outcomes_all_labels [sampleCheckA] () 5 (some ["c1", "nope"])
          sampleAnalysisA rfl⟩

/-- C10: the `Skipped` field of a completed analysis is the caller-supplied
skip list verbatim (`nil` normalised to the empty list) — not the list of
check codes actually skipped, so non-matching entries stay and case is
preserved. -/
theorem runChecks_skipped_field_verbatim {R : Type} (checks : List (Check R)) (ar : R)
    (limit : Nat) (skip : Option (List String)) (a : Analysis R)
    (h : RunChecks checks ar limit skip = some a) :
    a.Skipped = skip.getD [] := by
  obtain ⟨results, outcomes, _, rfl⟩ := runChecks_destruct checks ar limit skip a h
  rfl

/-- C10 witness: the skip list `["c1", "nope"]` is reproduced verbatim —
`nope` matches no check and `c1` keeps its lower case (the check's code is
`C1`). -/
theorem runChecks_skipped_field_verbatim_witness :
    RunChecks [sampleCheckA] () 5 (some ["c1", "nope"]) = some sampleAnalysisA ∧
    sampleAnalysisA.Skipped = (some ["c1", "nope"] : Option (List String)).getD [] :=
  ⟨rfl, runChecks_skipped_field_verbatim [sampleCheckA] () 5 (some ["c1", "nope"])
          sampleAnalysisA rfl⟩

/-- C9: `Outcome.String` is partial: it yields the four labels on the four
defined outcome values and panics (`none` in this embedding) on every
other integer value of the Go `Outcome` type. -/
theorem outcome_label_only_defined :
    (Outcome.String Pass = some "PASS" ∧ Outcome.String PassWithIssues = some "WARN" ∧
     Outcome.String Fail = some "FAIL" ∧ Outcome.String Skipped = some "SKIP") ∧
    ∀ o : Outcome, o ∉ Outcomes → Outcome.String o = none := by
  refine ⟨⟨rfl, rfl, rfl, rfl⟩, ?_⟩
  intro o ho
  simp only [Outcomes, List.mem_cons, List.not_mem_nil, or_false, not_or] at ho
  obtain ⟨h0, h1, h2, h3⟩ := ho
  simp [Outcome.String, h0, h1, h2, h3]

/-- C9 witness: the out-of-range outcome value `7` (as could be produced by
unmarshalling a persisted report) makes `Outcome.String` panic. -/
theorem outcome_label_only_defined_witness :
    (7 : Outcome) ∉ Outcomes ∧ Outcome.String 7 = none :=
  ⟨by decide, (outcome_label_only_defined).2 7 (by decide)⟩

/-- C3 counterexample: `sampleCheckErr`'s handler returns error `boom`
having added no example; the run continues and maps the check to `Skipped`,
but the `CheckResult` stored in the analysis carries the zero-value
collection — its error field is `""`, not `boom`, because `RunChecks` only
copies the collection onto the result when it holds at least one example. -/
theorem handler_error_text_dropped_counterexample :
    sampleErrHandler () (newExamplesCollection 5) =
      (Pass, some "boom", newExamplesCollection 5) ∧
    RunChecks [sampleCheckErr] () 5 none = some sampleAnalysisErr ∧
    sampleAnalysisErr.Results.map (fun r => (r.Outcome, r.Examples.Error)) =
      [(Skipped, "")] :=
  ⟨rfl, rfl, rfl⟩

/-- C3 (amended): a handler error maps the check to `Skipped` with the
error text preserved on the `ExamplesCollection` returned by `RunCheck`,
and the Runner continues with the remaining checks; the text reaches the
`CheckResult` stored in the analysis only when the collection holds at
least one example (otherwise the result keeps the zero-value collection). -/
theorem runCheck_handler_error {R : Type} (check : Check R) (ar : R) (limit : Nat)
    (f : CheckFunc R) (o : Outcome) (msg : String) (ex1 : ExamplesCollection)
    (skip : List String) (rest : List (Check R)) (results : List (CheckResult R))
    (outcomes : List (String × Nat))
    (hh : check.Handler = some f)
    (hf : f ar (newExamplesCollection limit) = (o, some msg, ex1))
    (hns : skip.any (fun s => eqFold check.Code s) = false) :
    RunCheck check ar limit = some (Skipped, { ex1 with Error := msg }) ∧
    runChecksLoop ar limit skip (check :: rest) results outcomes =
      runChecksLoop ar limit skip rest
        (results ++ [{ Check := check, Outcome := Skipped, OutcomeString := "SKIP",
                       Examples := if ex1.Examples.length > 0
                                   then { ex1 with Error := msg }
                                   else emptyExamples }])
        (mapInc outcomes "SKIP") := by
  have hrc : RunCheck check ar limit = some (Skipped, { ex1 with Error := msg }) := by
    simp only [RunCheck, hh, hf]
  refine ⟨hrc, ?_⟩
  simp only [runChecksLoop, runCheckResult, hns, Bool.not_false, if_true, hrc]
  rfl

/-- C3 amended witness: `sampleCheckErrEx` adds one example and then
errors; `RunCheck` keeps the example and the error text, and the loop
records the check as `SKIP` and moves on. -/
theorem runCheck_handler_error_witness :
    (sampleCheckErrEx.Handler = some sampleErrExHandler ∧
     sampleErrExHandler () (newExamplesCollection 5) =
       (Fail, some "boom", (newExamplesCollection 5).Add "ex1") ∧
     ([] : List String).any (fun s => eqFold sampleCheckErrEx.Code s) = false) ∧
    (RunCheck sampleCheckErrEx () 5 =
       some (Skipped, { (newExamplesCollection 5).Add "ex1" with Error := "boom" }) ∧
     runChecksLoop () 5 [] [sampleCheckErrEx] [] [("PASS", 0)] =
       runChecksLoop () 5 [] []
         [{ Check := sampleCheckErrEx, Outcome := Skipped, OutcomeString := "SKIP",
            Examples := if ((newExamplesCollection 5).Add "ex1").Examples.length > 0
                        then { (newExamplesCollection 5).Add "ex1" with Error := "boom" }
                        else emptyExamples }]
         (mapInc [("PASS", 0)] "SKIP")) :=
  ⟨⟨rfl, rfl, rfl⟩,
   runCheck_handler_error sampleCheckErrEx () 5 sampleErrExHandler Fail "boom"
     ((newExamplesCollection 5).Add "ex1") [] [] [] [("PASS", 0)] rfl rfl rfl⟩

/-- Registering a check with a name already in the registry panics
(`none`), whatever the other fields are: every guard path of `registerOne`
rejects it. -/
theorem registerOne_dup_none {R : Type} (st : RegistryState R) (c : Check R)
    (hdup : (mapGet st.registeredChecks c.Name).isSome = true) :
    registerOne st c = none := by
  unfold registerOne
  split_ifs with h1 h2 h3 h4
  any_goals rfl

/-- A successful `registerOne` never removes a registered name. -/
theorem registerOne_mono {R : Type} (st st' : RegistryState R) (c : Check R)
    (h : registerOne st c = some st') (name : String)
    (hn : (mapGet st.registeredChecks name).isSome = true) :
    (mapGet st'.registeredChecks name).isSome = true := by
  unfold registerOne at h
  split_ifs at h
  split at h
  next => exact absurd h (by simp)
  next cfgs hcfgs =>
    obtain rfl : _ = st' := Option.some.inj h
    simp only [mapGet_mapSet]
    split
    · rfl
    · exact hn

/-- C4 counterexample: two checks sharing code `X1` under distinct names
both register successfully — a code collision does not make registration
fail (only names are checked), refuting global code uniqueness. -/
theorem mustRegister_code_collision_accepted :
    sampleDupCode1.Code = sampleDupCode2.Code ∧
    sampleDupCode1.Name ≠ sampleDupCode2.Name ∧
    (MustRegisterCheck (emptyRegistry Unit) [sampleDupCode1, sampleDupCode2]).map
      (fun st => st.registeredChecks.map Prod.fst) = some ["N1", "N2"] :=
  ⟨rfl, by decide, rfl⟩

/-- C4 (amended): check NAMES are globally unique across the registry —
registering a check whose name is already registered panics rather than
overwriting; code uniqueness is not enforced. -/
theorem mustRegister_name_collision_fails {R : Type} (st : RegistryState R)
    (checks : List (Check R)) (c : Check R) (hc : c ∈ checks)
    (hdup : (mapGet st.registeredChecks c.Name).isSome = true) :
    MustRegisterCheck st checks = none := by
  induction checks generalizing st with
  | nil => cases hc
  | cons c' rest ih =>
    rcases List.mem_cons.mp hc with rfl | hmem
    · simp [MustRegisterCheck, List.foldlM, registerOne_dup_none st c hdup]
    · cases hreg : registerOne st c' with
      | none => simp [MustRegisterCheck, List.foldlM, hreg]
      | some st2 =>
        have hdup2 := registerOne_mono st st2 c' hreg c.Name hdup
        have hrest := ih st2 hmem hdup2
        simp only [MustRegisterCheck] at hrest ⊢
        simp [List.foldlM, hreg, hrest]

/-- C4 amended witness: registering `sampleDupName` (name `N1`) into a
registry already holding name `N1` panics. -/
theorem mustRegister_name_collision_fails_witness :
    (sampleDupName ∈ [sampleDupName] ∧
     (mapGet (RegistryState.mk [("N1", sampleDupCode1)] []).registeredChecks
        sampleDupName.Name).isSome = true) ∧
    MustRegisterCheck (RegistryState.mk [("N1", sampleDupCode1)] []) [sampleDupName] = none :=
  ⟨⟨List.mem_singleton.mpr rfl, rfl⟩,
   mustRegister_name_collision_fails (RegistryState.mk [("N1", sampleDupCode1)] [])
     [sampleDupName] sampleDupName (List.mem_singleton.mpr rfl) rfl⟩

/-- Two permuted lists, both sorted by code, with duplicate-free codes,
are equal: the tie-breaking freedom of the sort only matters when two
distinct checks share a code. -/
theorem sorted_nodup_codes_perm_eq {R : Type} :
    ∀ (l1 l2 : List (Check R)), l1.Perm l2 →
      l1.Sorted (fun a b => a.Code ≤ b.Code) →
      l2.Sorted (fun a b => a.Code ≤ b.Code) →
      (l1.map (fun c => c.Code)).Nodup → l1 = l2 := by
  intro l1
  induction l1 with
  | nil =>
    intro l2 hp _ _ _
    exact hp.nil_eq
  | cons a t ih =>
    intro l2 hp hs1 hs2 hnd
    cases l2 with
    | nil => cases hp.eq_nil
    | cons b t2 =>
      have hab : a = b := by
        by_contra hne
        have ha2 : a ∈ b :: t2 := hp.subset (List.mem_cons_self a t)
        have hb1 : b ∈ a :: t := hp.symm.subset (List.mem_cons_self b t2)
        have ha2' : a ∈ t2 := (List.mem_cons.mp ha2).resolve_left hne
        have hb1' : b ∈ t := (List.mem_cons.mp hb1).resolve_left (fun h => hne h.symm)
        have h1 : a.Code ≤ b.Code := (List.pairwise_cons.mp hs1).1 b hb1'
        have h2 : b.Code ≤ a.Code := (List.pairwise_cons.mp hs2).1 a ha2'
        have heq : a.Code = b.Code := le_antisymm h1 h2
        have hmem : a.Code ∈ t.map (fun c => c.Code) := by
          rw [heq]
          exact List.mem_map_of_mem _ hb1'
        exact (List.nodup_cons.mp hnd).1 hmem
      subst hab
      have hpt : t.Perm t2 := hp.cons_inv
      rw [ih t2 hpt (List.pairwise_cons.mp hs1).2 (List.pairwise_cons.mp hs2).2
            (List.nodup_cons.mp hnd).2]

/-- C7 counterexample: the registry reachable through the C4 scenario
holds two distinct checks sharing code `X1`; two iteration orders of the
same registry content (a permutation of each other) make
`GetDefaultChecks` return the equal-code checks in different relative
orders, so the default execution order is not deterministic across
repeated calls on that registry. -/
theorem getDefaultChecks_tie_order_counterexample :
    sampleDupCode1.Code = sampleDupCode2.Code ∧
    sampleDupCode1.Name ≠ sampleDupCode2.Name ∧
    List.Perm [sampleDupCode1, sampleDupCode2] [sampleDupCode2, sampleDupCode1] ∧
    (GetDefaultChecks [sampleDupCode1, sampleDupCode2]).map (fun c => c.Name) =
      ["N1", "N2"] ∧
    (GetDefaultChecks [sampleDupCode2, sampleDupCode1]).map (fun c => c.Name) =
      ["N2", "N1"] := by
  refine ⟨rfl, by decide, List.Perm.swap _ _ _, ?_, ?_⟩ <;>
    simp [GetDefaultChecks, List.insertionSort, List.orderedInsert,
          sampleDupCode1, sampleDupCode2]

/-- C7 (amended): `GetDefaultChecks` returns a snapshot of all registered
checks — a permutation of the registry's values, whatever iteration order
the underlying map yields — sorted in ascending order of their code.  The
sequence of codes in the result is deterministic across repeated calls on
the same registry, and so is the full order whenever the registered codes
are pairwise distinct; only the relative order of distinct checks sharing
a code depends on the randomised map iteration order. -/
theorem getDefaultChecks_sorted_code_deterministic {R : Type}
    (values values2 : List (Check R)) (hperm : values.Perm values2) :
    (GetDefaultChecks values).Perm values ∧
    (GetDefaultChecks values).Sorted (fun a b => a.Code ≤ b.Code) ∧
    (GetDefaultChecks values).map (fun c => c.Code) =
      (GetDefaultChecks values2).map (fun c => c.Code) ∧
    ((values.map (fun c => c.Code)).Nodup →
      GetDefaultChecks values = GetDefaultChecks values2) := by
  haveI : IsTotal (Check R) (fun a b => a.Code ≤ b.Code) :=
    ⟨fun a b => le_total a.Code b.Code⟩
  haveI : IsTrans (Check R) (fun a b => a.Code ≤ b.Code) :=
    ⟨fun _ _ _ h1 h2 => le_trans h1 h2⟩
  have hsorted : ∀ (l : List (Check R)),
      (GetDefaultChecks l).Sorted (fun a b => a.Code ≤ b.Code) :=
    fun l => List.sorted_insertionSort _ l
  have hperm1 : (GetDefaultChecks values).Perm values := List.perm_insertionSort _ _
  have hperm2 : (GetDefaultChecks values2).Perm values2 := List.perm_insertionSort _ _
  have hpp : (GetDefaultChecks values).Perm (GetDefaultChecks values2) :=
    (hperm1.trans hperm).trans hperm2.symm
  refine ⟨hperm1, hsorted values, ?_, ?_⟩
  · haveI : IsAntisymm String (fun a b => a ≤ b) := ⟨fun a b h1 h2 => le_antisymm h1 h2⟩
    have hs1 : ((GetDefaultChecks values).map (fun c => c.Code)).Sorted
        (fun a b => a ≤ b) := List.pairwise_map.mpr (hsorted values)
    have hs2 : ((GetDefaultChecks values2).map (fun c => c.Code)).Sorted
        (fun a b => a ≤ b) := List.pairwise_map.mpr (hsorted values2)
    exact List.eq_of_perm_of_sorted (hpp.map (fun c => c.Code)) hs1 hs2
  · intro hnd
    have hnd1 : ((GetDefaultChecks values).map (fun c => c.Code)).Nodup :=
      ((hperm1.map (fun c => c.Code)).nodup_iff).mpr hnd
    exact sorted_nodup_codes_perm_eq _ _ hpp (hsorted values) (hsorted values2) hnd1

/-- C7 amended witness: two iteration orders of a registry holding the
distinct codes `C1` and `C2`; the theorem applies and, the codes being
duplicate-free, forces the same sorted snapshot for both orders. -/
theorem getDefaultChecks_sorted_code_deterministic_witness :
    List.Perm [sampleCheckA, sampleCheckB] [sampleCheckB, sampleCheckA] ∧
    ((GetDefaultChecks [sampleCheckA, sampleCheckB]).Perm [sampleCheckA, sampleCheckB] ∧
     (GetDefaultChecks [sampleCheckA, sampleCheckB]).Sorted
       (fun a b => a.Code ≤ b.Code) ∧
     (GetDefaultChecks [sampleCheckA, sampleCheckB]).map (fun c => c.Code) =
       (GetDefaultChecks [sampleCheckB, sampleCheckA]).map (fun c => c.Code) ∧
     (([sampleCheckA, sampleCheckB].map (fun c => c.Code)).Nodup →
       GetDefaultChecks [sampleCheckA, sampleCheckB] =
         GetDefaultChecks [sampleCheckB, sampleCheckA])) :=
  ⟨List.Perm.swap _ _ _,
   getDefaultChecks_sorted_code_deterministic [sampleCheckA, sampleCheckB]
     [sampleCheckB, sampleCheckA] (List.Perm.swap _ _ _)⟩

/-- C5 counterexample: Go's `strconv.ParseFloat` accepts `NaN` with a nil
error and every IEEE comparison with NaN is false, so `Set("NaN")` passes
the negative/over-100 guards, is not divided, and stores NaN as the
override — `Value` then returns a value outside the 0–1 range the claim
asserts. -/
theorem set_percentage_nan_counterexample :
    sampleParseNaN (trimRightPercent "NaN") = some GoFloat.nan ∧
    CheckConfig.Set sampleParseNaN sampleCfg "NaN" =
      .ok { sampleCfg with SetValue := some GoFloat.nan } ∧
    ({ sampleCfg with SetValue := some GoFloat.nan }).Value = GoFloat.nan ∧
    GoFloat.nan.isFinite = false ∧
    GoFloat.nan.inUnitInterval = false :=
  ⟨rfl, rfl, rfl, rfl, rfl⟩

/-- C5 (amended): for a percentage-unit item, `Set` errors exactly when
the `%`-trimmed input does not parse or the parsed float compares below 0
or above 100 under IEEE semantics; on success a value comparing above 1
is divided by 100 before being stored and `Value` then returns the stored
override (the default when no override is set).  The stored override lies
in the 0–1 range whenever it is finite; a parsed NaN, whose comparisons
are all false, passes the guards unchanged and escapes that range. -/
theorem checkConfig_set_percentage_ieee (parse : String → Option GoFloat)
    (c : CheckConfig) (v : String) (hU : c.Unit = PercentageUnit) :
    (∀ e, CheckConfig.Set parse c v = .error e →
        parse (trimRightPercent v) = none ∨
        ∃ f, parse (trimRightPercent v) = some f ∧
          (f.ltF (.finite 0) = true ∨ (GoFloat.finite 100).ltF f = true)) ∧
    (∀ f, parse (trimRightPercent v) = some f →
        f.ltF (.finite 0) = false → (GoFloat.finite 100).ltF f = false →
        CheckConfig.Set parse c v =
          .ok { c with
                SetValue := some (if (GoFloat.finite 1).ltF f
                                  then f.divF (.finite 100) else f) }) ∧
    (∀ c', CheckConfig.Set parse c v = .ok c' →
        ∃ g, c'.SetValue = some g ∧ c'.Value = g ∧
          (g.isFinite = true → g.inUnitInterval = true)) ∧
    (c.SetValue = none → c.Value = c.Default) := by
  have hset : CheckConfig.Set parse c v =
      match parse (trimRightPercent v) with
      | none => .error "parse error"
      | some f =>
        if f.ltF (.finite 0) then .error "percentage values must be positive"
        else if (GoFloat.finite 100).ltF f then
          .error "percentage values may not exceed 100"
        else .ok { c with
                   SetValue := some (if (GoFloat.finite 1).ltF f
                                     then f.divF (.finite 100) else f) } := by
    simp [CheckConfig.Set, hU]
  refine ⟨?_, ?_, ?_, fun hnone => by simp [CheckConfig.Value, hnone]⟩
  · intro e he
    cases hp : parse (trimRightPercent v) with
    | none => exact Or.inl rfl
    | some f =>
      rw [hp] at hset
      dsimp only at hset
      refine Or.inr ⟨f, rfl, ?_⟩
      cases hneg : f.ltF (.finite 0) with
      | true => exact Or.inl rfl
      | false =>
        cases h100 : (GoFloat.finite 100).ltF f with
        | true => exact Or.inr rfl
        | false =>
          simp only [hneg, h100, Bool.false_eq_true, if_false] at hset
          rw [hset] at he
          cases he
  · intro f hf hneg h100
    rw [hf] at hset
    dsimp only at hset
    simp only [hneg, h100, Bool.false_eq_true, if_false] at hset
    exact hset
  · intro c' hc'
    cases hp : parse (trimRightPercent v) with
    | none =>
      rw [hp] at hset
      rw [hset] at hc'
      cases hc'
    | some f =>
      rw [hp] at hset
      dsimp only at hset
      cases hneg : f.ltF (.finite 0) with
      | true =>
        simp only [hneg, if_true] at hset
        rw [hset] at hc'
        cases hc'
      | false =>
        cases h100 : (GoFloat.finite 100).ltF f with
        | true =>
          simp only [hneg, h100, Bool.false_eq_true, if_false, if_true] at hset
          rw [hset] at hc'
          cases hc'
        | false =>
          simp only [hneg, h100, Bool.false_eq_true, if_false] at hset
          rw [hset] at hc'
          obtain rfl : _ = c' := Except.ok.inj hc'
          refine ⟨_, rfl, rfl, ?_⟩
          cases f with
          | nan =>
            intro hfin
            simp [GoFloat.ltF, GoFloat.isFinite] at hfin
          | posInf => exact absurd h100 (by simp [GoFloat.ltF])
          | negInf => exact absurd hneg (by simp [GoFloat.ltF])
          | finite q =>
            intro _
            have h0 : 0 ≤ q := not_lt.mp (by simpa [GoFloat.ltF] using hneg)
            have h1 : q ≤ 100 := not_lt.mp (by simpa [GoFloat.ltF] using h100)
            by_cases hgt : 1 < q
            · have hlt : (GoFloat.finite 1).ltF (.finite q) = true := by
                simp [GoFloat.ltF, hgt]
              simp only [hlt, if_true, GoFloat.divF, GoFloat.inUnitInterval,
                         decide_eq_true_eq]
              exact ⟨div_nonneg h0 (by norm_num), (div_le_one (by norm_num)).mpr h1⟩
            · have hlt : (GoFloat.finite 1).ltF (.finite q) = false := by
                simp [GoFloat.ltF, hgt]
              simp only [hlt, Bool.false_eq_true, if_false, GoFloat.inUnitInterval,
                         decide_eq_true_eq]
              exact ⟨h0, not_lt.mp hgt⟩

/-- C5 amended witness: setting `50%` on a percentage item parses to the
finite value 50, passes the guards, is divided by 100 and stored as the
override. -/
theorem checkConfig_set_percentage_ieee_witness :
    (sampleCfg.Unit = PercentageUnit ∧
     sampleParse (trimRightPercent "50%") = some (GoFloat.finite 50) ∧
     (GoFloat.finite 50).ltF (GoFloat.finite 0) = false ∧
     (GoFloat.finite 100).ltF (GoFloat.finite 50) = false) ∧
    CheckConfig.Set sampleParse sampleCfg "50%" =
      .ok { sampleCfg with
            SetValue := some (if (GoFloat.finite 1).ltF (GoFloat.finite 50)
                              then (GoFloat.finite 50).divF (GoFloat.finite 100)
                              else GoFloat.finite 50) } :=
  ⟨⟨rfl, rfl, rfl, rfl⟩,
   (checkConfig_set_percentage_ieee sampleParse sampleCfg "50%" rfl).2.1
     (GoFloat.finite 50) rfl rfl rfl⟩

/-! Helper lemmas for the meta-leader check. -/

theorem mapGet_none_iff {α : Type} (m : List (String × α)) (k : String) :
    mapGet m k = none ↔ k ∉ m.map Prod.fst := by
  induction m with
  | nil => simp [mapGet]
  | cons p rest ih =>
    obtain ⟨a, b⟩ := p
    by_cases hak : a = k
    · subst hak
      simp [mapGet]
    · simp only [mapGet, if_neg hak, List.map_cons, List.mem_cons, not_or]
      rw [ih]
      exact ⟨fun h => ⟨fun hk => hak hk.symm, h⟩, fun h => h.2⟩

theorem mapGet_isSome_iff {α : Type} (m : List (String × α)) (k : String) :
    (mapGet m k).isSome = true ↔ k ∈ m.map Prod.fst := by
  rw [Option.isSome_iff_ne_none, Ne, mapGet_none_iff, not_not]

theorem mapSet_keys {α : Type} (m : List (String × α)) (k : String) (v : α) :
    (mapSet m k v).map Prod.fst =
      if (mapGet m k).isSome then m.map Prod.fst else m.map Prod.fst ++ [k] := by
  induction m with
  | nil => simp [mapSet, mapGet]
  | cons p rest ih =>
    obtain ⟨a, b⟩ := p
    by_cases hak : a = k
    · subst hak
      simp [mapSet, mapGet]
    · simp only [mapSet, if_neg hak, mapGet, List.map_cons]
      rw [ih]
      by_cases hs : (mapGet rest k).isSome <;> simp [hs, hak]

theorem mapAppend_keys_nodup (m : List (String × List String)) (k v : String)
    (h : (m.map Prod.fst).Nodup) : ((mapAppend m k v).map Prod.fst).Nodup := by
  unfold mapAppend
  rw [mapSet_keys]
  split
  · exact h
  next hs =>
    have hk : k ∉ m.map Prod.fst := by
      rw [← mapGet_none_iff]
      cases hg : mapGet m k
      · rfl
      · exact absurd (by simp [hg]) hs
    simp [List.nodup_append, h, hk]

theorem mapAppend_keys_toFinset (m : List (String × List String)) (k v : String) :
    ((mapAppend m k v).map Prod.fst).toFinset = insert k (m.map Prod.fst).toFinset := by
  unfold mapAppend
  rw [mapSet_keys]
  split
  next hs =>
    have hk : k ∈ m.map Prod.fst := (mapGet_isSome_iff m k).mp hs
    rw [Finset.insert_eq_self.mpr (List.mem_toFinset.mpr hk)]
  next =>
    ext x
    simp [or_comm]

theorem examples_count_add (c : ExamplesCollection) (s : String) :
    (c.Add s).Count = c.Count + 1 := by
  unfold ExamplesCollection.Add ExamplesCollection.Count
  split <;> simp <;> omega

/-- The per-server grouping loop succeeds when no hard load error occurs,
its result's keys are free of duplicates (given a duplicate-free
accumulator) and they are exactly the accumulated keys together with the
leaders reported by the responding servers. -/
theorem gather_ok (r : Reader) (c : String)
    (hno : ∀ s msg, r.loadJsz c s ≠ .errOther msg) :
    ∀ (servers : List String) (acc : List (String × List String)),
      ∃ m, gatherLeaderFollowers r c servers acc = .ok m ∧
        ((acc.map Prod.fst).Nodup → (m.map Prod.fst).Nodup) ∧
        (m.map Prod.fst).toFinset =
          (acc.map Prod.fst).toFinset ∪
            (servers.filterMap (serverLeader r c)).toFinset := by
  intro servers
  induction servers with
  | nil => exact fun acc => ⟨acc, rfl, id, by simp⟩
  | cons s rest ih =>
    intro acc
    cases hload : r.loadJsz c s with
    | noMatches =>
      obtain ⟨m, hm, hnd, hfs⟩ := ih acc
      have hsl : serverLeader r c s = none := by simp [serverLeader, hload]
      refine ⟨m, ?_, hnd, ?_⟩
      · simp [gatherLeaderFollowers, hload, hm]
      · simp [List.filterMap_cons, hsl, hfs]
    | errOther msg => exact absurd hload (hno s msg)
    | ok info =>
      by_cases hd : info.Disabled
      · obtain ⟨m, hm, hnd, hfs⟩ := ih acc
        have hsl : serverLeader r c s = none := by simp [serverLeader, hload, hd]
        refine ⟨m, ?_, hnd, ?_⟩
        · simp [gatherLeaderFollowers, hload, hd, hm]
        · simp [List.filterMap_cons, hsl, hfs]
      · cases hmeta : info.Meta with
        | none =>
          obtain ⟨m, hm, hnd, hfs⟩ := ih acc
          have hsl : serverLeader r c s = none := by
            simp [serverLeader, hload, hd, hmeta]
          refine ⟨m, ?_, hnd, ?_⟩
          · simp [gatherLeaderFollowers, hload, hd, hmeta, hm]
          · simp [List.filterMap_cons, hsl, hfs]
        | some meta =>
          obtain ⟨m, hm, hnd, hfs⟩ :=
            ih (mapAppend acc (if meta.Leader = "" then "NO_LEADER" else meta.Leader) s)
          have hsl : serverLeader r c s =
              some (if meta.Leader = "" then "NO_LEADER" else meta.Leader) := by
            simp [serverLeader, hload, hd, hmeta]
          refine ⟨m, ?_, ?_, ?_⟩
          · simp [gatherLeaderFollowers, hload, hd, hmeta, hm]
          · intro hacc
            exact hnd (mapAppend_keys_nodup _ _ _ hacc)
          · rw [hfs, mapAppend_keys_toFinset]
            simp only [List.filterMap_cons, hsl, List.toFinset_cons]
            ext x
            simp

/-- The grouping loop of one cluster yields one map entry per distinct
leader observed among the cluster's responding servers. -/
theorem gather_length (r : Reader) (c : String)
    (hno : ∀ s msg, r.loadJsz c s ≠ .errOther msg) :
    ∃ m, gatherLeaderFollowers r c (r.clusterServerNames c) [] = .ok m ∧
      m.length = (respondingLeaders r c).dedup.length := by
  obtain ⟨m, hm, hnd, hfs⟩ := gather_ok r c hno (r.clusterServerNames c) []
  refine ⟨m, hm, ?_⟩
  have hnodup : (m.map Prod.fst).Nodup := hnd (by simp)
  have hlen1 : (m.map Prod.fst).length = m.length := List.length_map m Prod.fst
  have hcard : (m.map Prod.fst).toFinset.card = (m.map Prod.fst).length :=
    List.toFinset_card_of_nodup hnodup
  have hfs2 : (m.map Prod.fst).toFinset = (respondingLeaders r c).toFinset := by
    rw [hfs]
    simp [respondingLeaders]
  have hdd : (respondingLeaders r c).toFinset.card =
      (respondingLeaders r c).dedup.length := List.card_toFinset _
  rw [← hlen1, ← hcard, hfs2, hdd]

/-- The per-cluster loop of the meta-leader check never errors when no
hard load error occurs; it adds exactly one example per disagreeing
cluster and leaves the collection untouched when every cluster agrees. -/
theorem metaLoop_spec (r : Reader)
    (hno : ∀ c s msg, r.loadJsz c s ≠ .errOther msg) :
    ∀ (clusters : List String) (examples : ExamplesCollection),
      ∃ ex2, metaLeaderLoop r clusters examples = (none, ex2) ∧
        ex2.Count = examples.Count +
          (clusters.filter fun c => 1 < (respondingLeaders r c).dedup.length).length ∧
        ((clusters.filter fun c => 1 < (respondingLeaders r c).dedup.length) = [] →
          ex2 = examples) := by
  intro clusters
  induction clusters with
  | nil => exact fun examples => ⟨examples, rfl, by simp, fun _ => rfl⟩
  | cons c rest ih =>
    intro examples
    obtain ⟨m, hm, hlen⟩ := gather_length r c (fun s msg => hno c s msg)
    by_cases hdis : 1 < (respondingLeaders r c).dedup.length
    · have hm1 : m.length > 1 := by omega
      obtain ⟨ex2, hloop, hcount, hnil⟩ := ih (examples.Add
        ("Members of " ++ c ++ " disagree on meta leader (" ++ renderFollowers m ++ ")"))
      refine ⟨ex2, ?_, ?_, ?_⟩
      · simp [metaLeaderLoop, hm, if_pos hm1, hloop]
      · rw [hcount, examples_count_add]
        simp [List.filter_cons, hdis]
        omega
      · intro hf
        exfalso
        have hmem : c ∈ (c :: rest).filter
            (fun c => decide (1 < (respondingLeaders r c).dedup.length)) :=
          List.mem_filter.mpr ⟨List.mem_cons_self _ _, by simpa using hdis⟩
        rw [hf] at hmem
        cases hmem
    · have hm1 : ¬ (m.length > 1) := by omega
      obtain ⟨ex2, hloop, hcount, hnil⟩ := ih examples
      refine ⟨ex2, ?_, ?_, ?_⟩
      · simp [metaLeaderLoop, hm, if_neg hm1, hloop]
      · rw [hcount]
        simp [List.filter_cons, hdis]
      · intro hf
        apply hnil
        simpa [List.filter_cons, hdis] using hf

/-- C6: when no hard load error occurs, the meta-leader check returns no
error, offers exactly one example per cluster in which the responding
servers disagree on the meta leader (missing artifacts, disabled
JetStream and absent meta info are ignored; `NO_LEADER` stands in for an
empty leader), concludes `Fail` exactly when such a cluster exists, and
concludes `Pass` with the untouched (zero-example) collection when every
cluster agrees — including single-responder and no-responder clusters. -/
theorem checkMetaClusterLeader_spec (r : Reader) (limit : Nat)
    (hno : ∀ c s msg, r.loadJsz c s ≠ .errOther msg) :
    (checkMetaClusterLeader r (newExamplesCollection limit)).2.1 = none ∧
    ((checkMetaClusterLeader r (newExamplesCollection limit)).2.2).Count =
      (disagreeingClusters r).length ∧
    (checkMetaClusterLeader r (newExamplesCollection limit)).1 =
      (if disagreeingClusters r = [] then Pass else Fail) ∧
    (disagreeingClusters r = [] →
      checkMetaClusterLeader r (newExamplesCollection limit) =
        (Pass, none, newExamplesCollection limit)) := by
  obtain ⟨ex2, hloop, hcount, hnil⟩ :=
    metaLoop_spec r hno r.clusterNames (newExamplesCollection limit)
  have hc : ex2.Count = (disagreeingClusters r).length := by
    rw [hcount]
    simp [disagreeingClusters, ExamplesCollection.Count, newExamplesCollection]
  by_cases hd : disagreeingClusters r = []
  · have hc0 : ex2.Count = 0 := by rw [hc, hd]; rfl
    have hex : ex2 = newExamplesCollection limit := by
      apply hnil
      simpa [disagreeingClusters] using hd
    have hck : checkMetaClusterLeader r (newExamplesCollection limit) =
        (Pass, none, ex2) := by
      simp [checkMetaClusterLeader, hloop, hc0]
    rw [hck]
    exact ⟨rfl, hc, by simp [hd], fun _ => by rw [hex]⟩
  · have hcpos : ex2.Count > 0 := by
      rw [hc]
      exact List.length_pos.mpr hd
    have hck : checkMetaClusterLeader r (newExamplesCollection limit) =
        (Fail, none, ex2) := by
      simp [checkMetaClusterLeader, hloop, hcpos]
    rw [hck]
    exact ⟨rfl, hc, by simp [hd], fun h => absurd h hd⟩

/-- C6 witness: scenario B — in cluster `C1` servers `s1`, `s2` report
leader `srv1` and `s3` reports `srv2`; the check fails with exactly one
example for the one disagreeing cluster. -/
theorem checkMetaClusterLeader_spec_witness :
    ((∀ c s msg, sampleReaderB.loadJsz c s ≠ .errOther msg) ∧
     disagreeingClusters sampleReaderB = ["C1"]) ∧
    ((checkMetaClusterLeader sampleReaderB (newExamplesCollection 5)).2.1 = none ∧
     ((checkMetaClusterLeader sampleReaderB (newExamplesCollection 5)).2.2).Count =
       (disagreeingClusters sampleReaderB).length ∧
     (checkMetaClusterLeader sampleReaderB (newExamplesCollection 5)).1 =
       (if disagreeingClusters sampleReaderB = [] then Pass else Fail) ∧
     (disagreeingClusters sampleReaderB = [] →
       checkMetaClusterLeader sampleReaderB (newExamplesCollection 5) =
         (Pass, none, newExamplesCollection 5))) := by
  have hno : ∀ c s msg, sampleReaderB.loadJsz c s ≠ .errOther msg := by
    intro c s msg
    simp only [sampleReaderB]
    split_ifs <;> simp
  exact ⟨⟨hno, rfl⟩, checkMetaClusterLeader_spec sampleReaderB 5 hno⟩

end audit
